import Mathlib

set_option maxRecDepth 10000

/-!
Verification of the nypty-rx pharmacy POS core against its specification.

The development embeds the two Supabase edge functions
`supabase/functions/process-sale/index.ts` and
`supabase/functions/process-bulk-inventory/index.ts` as pure Lean
functions.  External effects (the Postgres store, the auth service, the
random bill-number generator) are passed in as explicit values, so every
definition is executable.  JavaScript numbers are modelled as rationals,
JavaScript truthiness of optional strings is modelled explicitly, and the
dynamic `Number(x)` / `isNaN` discipline of the bulk validator is modelled
by a small sum type.  The Postgres function
`create_sale_and_update_inventory` is not part of the repository sources;
it is modelled from the specification (see its doc comment below).
-/

/-! ## Decimal digit strings

`natDecChars n` is the character list JavaScript produces when it prints
the non-negative integer `n` (template-literal interpolation in
`parseDate` and `generateBillNumber`).  The fuel-based recursion keeps the
definition kernel-reducible.
-/

/-- Value of a decimal digit character, as JavaScript's `parseInt` sees it. -/
def digitVal (c : Char) : Nat := c.toNat - 48

/-- Little-endian decimal digits of `n`; `fuel ≥ n` makes it exact. -/
def digitsFuelLE : Nat → Nat → List Nat
  | 0, _ => []
  | fuel + 1, n => if n = 0 then [] else n % 10 :: digitsFuelLE fuel (n / 10)

/-- The characters of the decimal numeral of `n` (most significant first). -/
def natDecChars (n : Nat) : List Char :=
  if n = 0 then ['0'] else ((digitsFuelLE n n).map Nat.digitChar).reverse

/-- Decimal rendering of a natural number, as JavaScript prints it. -/
def natToDec (n : Nat) : String := ⟨natDecChars n⟩

/-- Decimal rendering of an integer, as JavaScript prints it. -/
def intToDec (i : Int) : String :=
  if i < 0 then "-" ++ natToDec i.natAbs else natToDec i.toNat

/-- JavaScript `String(n).padStart(2, "0")` for a natural number. -/
def pad2 (n : Nat) : String := if n < 10 then "0" ++ natToDec n else natToDec n

/-- Numeric value of a digit-character list, as `parseInt` computes it. -/
def toNumL (cs : List Char) : Nat := cs.foldl (fun a c => 10 * a + digitVal c) 0

/-- JavaScript `s.includes(pat)`: `pat` occurs contiguously in `s`. -/
def strIncludes (pat s : String) : Bool := decide (List.IsInfix pat.data s.data)

/-- ASCII lowercasing of one character (kernel-reducible form of the
case folding `ilike` and `toLowerCase` perform on these inputs). -/
def charLower (c : Char) : Char :=
  if c.toNat ≥ 65 ∧ c.toNat ≤ 90 then Char.ofNat (c.toNat + 32) else c

/-- Case folding of a string, character by character. -/
def jsToLower (s : String) : String := ⟨s.data.map charLower⟩

/-- JavaScript `s.trim()`: strip whitespace from both ends. -/
def jsTrim (s : String) : String :=
  ⟨((s.data.dropWhile Char.isWhitespace).reverse.dropWhile Char.isWhitespace).reverse⟩

/-- JavaScript truthiness of an optional string: `undefined`, `null` and
the empty string are falsy. -/
def truthyStr : Option String → Bool
  | none => false
  | some s => !(s == "")

/-! ## The civil-date model of the JavaScript `Date` object

`parseDate` in `process-bulk-inventory/index.ts` builds a `Date` via
`Date.UTC(year, month - 1, day)` and reads it back with
`getUTCFullYear` / `getUTCMonth` / `getUTCDate`.  `Date.UTC` interprets
its arguments in the proleptic Gregorian calendar, carrying out-of-range
months and days (and mapping year arguments 0–99 to 1900–1999).  We model
the result directly as a normalized civil date.
-/

/-- A civil (proleptic Gregorian) calendar date, as read back from a
JavaScript `Date` through its `getUTC*` accessors: `month ∈ 1..12`,
`day ∈ 1..31`. -/
structure CivilDate where
  year : Int
  month : Nat
  day : Nat
deriving DecidableEq, Repr

/-- Gregorian leap-year rule (divisibility, so the sign convention of
`%` is irrelevant). -/
def isLeap (y : Int) : Bool :=
  (y % 4 == 0 && y % 100 != 0) || y % 400 == 0

/-- Days in month `m` (1-based) of year `y`. -/
def daysInMonth (y : Int) : Nat → Nat
  | 1 => 31
  | 2 => if isLeap y then 29 else 28
  | 3 => 31
  | 4 => 30
  | 5 => 31
  | 6 => 30
  | 7 => 31
  | 8 => 31
  | 9 => 30
  | 10 => 31
  | 11 => 30
  | 12 => 31
  | _ => 30

/-- Carry an arbitrary 0-based month index into a year and a 1-based
month, exactly as `Date.UTC` does. -/
def monthNorm (y : Int) (mIdx : Int) : Int × Nat :=
  (y + mIdx.ediv 12, (mIdx.emod 12).toNat + 1)

/-- Carry an out-of-range day-of-month into neighbouring months.  The
fuel bounds the number of carried months; the regex in `parseDate` only
produces day arguments between 0 and 99, for which fuel 40 is ample. -/
def dayNorm : Nat → Int → Nat → Int → Int × Nat × Int
  | 0, y, m, d => (y, m, d)
  | fuel + 1, y, m, d =>
    if d < 1 then
      let y2 := if m = 1 then y - 1 else y
      let m2 := if m = 1 then 12 else m - 1
      dayNorm fuel y2 m2 (d + daysInMonth y2 m2)
    else if (daysInMonth y m : Int) < d then
      let y2 := if m = 12 then y + 1 else y
      let m2 := if m = 12 then 1 else m + 1
      dayNorm fuel y2 m2 (d - daysInMonth y m)
    else (y, m, d)

/-- The civil date denoted by `Date.UTC(y, mIdx, d)`: the two-digit-year
adjustment followed by month and day carrying. -/
def dateUTC (y mIdx d : Int) : CivilDate :=
  let y1 := if 0 ≤ y ∧ y ≤ 99 then 1900 + y else y
  let ym := monthNorm y1 mIdx
  let r := dayNorm 40 ym.1 ym.2 d
  ⟨r.1, r.2.1, r.2.2.toNat⟩

/-- The `YYYY-MM-DD`-ish formatting at the end of `parseDate`: the year is
printed without padding, month and day with `padStart(2, "0")`. -/
def fmtCivil (c : CivilDate) : String :=
  intToDec c.year ++ "-" ++ pad2 c.month ++ "-" ++ pad2 c.day

/-- The regex branch of `parseDate`, applied to the character list of the
input string.  `fb` models the `new Date(dateStr)` fallback for strings
that do not match `^(\d{4})-(\d{2})-(\d{2})`: it returns the civil date
of the constructed `Date`, or `none` when that `Date` is invalid (`NaN`),
in which case the surrounding `try`/`catch` makes `parseDate` return
`null`. -/
def parseChars (fb : String → Option CivilDate) (s : String) :
    List Char → Option String
  | c1 :: c2 :: c3 :: c4 :: h1 :: c5 :: c6 :: h2 :: c7 :: c8 :: _ =>
    if c1.isDigit && c2.isDigit && c3.isDigit && c4.isDigit && h1 == '-' &&
        c5.isDigit && c6.isDigit && h2 == '-' && c7.isDigit && c8.isDigit then
      let y := toNumL [c1, c2, c3, c4]
      let m := toNumL [c5, c6]
      let d := toNumL [c7, c8]
      some (fmtCivil (dateUTC (y : Int) ((m : Int) - 1) (d : Int)))
    else
      match fb s with
      | some cd => some (fmtCivil cd)
      | none => none
  | _ =>
    match fb s with
    | some cd => some (fmtCivil cd)
    | none => none

/-- `parseDate` from `process-bulk-inventory/index.ts`, for string inputs
(the `instanceof Date` and `typeof dateStr === "number"` branches are
unreachable for the string-typed `expiryDate` payload field).  A missing
value or the empty string is falsy, so the function returns `null` at
once. -/
def parseDate (fb : String → Option CivilDate) : Option String → Option String
  | none => none
  | some s => if s == "" then none else parseChars fb s s.data

/-- A concrete fallback parser that accepts nothing, used to instantiate
theorems about the regex branch (which never consults the fallback). -/
def fbNone : String → Option CivilDate := fun _ => none

/-- The canonical `YYYY-MM-DD` rendering of a calendar date with a
four-digit year (zero-padded on the left, like the spec's `YYYY-MM-DD`). -/
def isoStr (y m d : Nat) : String :=
  (if y < 1000 then ⟨(List.replicate (4 - (natDecChars y).length) '0')⟩ else "") ++
    natToDec y ++ "-" ++ pad2 m ++ "-" ++ pad2 d

/-! ## Bulk inventory validator (`process-bulk-inventory/index.ts`)

Raw spreadsheet rows arrive as loosely-typed JSON.  `JsNum` models a raw
cell as the `Number(x)` / `x == null` / `isNaN` discipline of the source
sees it: absent (`null`/`undefined`), not a number (`NaN` after
coercion), or an actual numeric value (a rational, since JavaScript
numbers carry fractions).
-/

/-- A raw numeric cell from the upload, through JavaScript eyes. -/
inductive JsNum where
  | missing
  | nan
  | num (q : ℚ)
deriving DecidableEq, Repr

/-- One uploaded row (`InventoryItemPayload & { __rowNum__ }`). -/
structure RawRow where
  rowNum : Nat
  medicineName : Option String
  batchNumber : Option String
  quantity : JsNum
  mrp : JsNum
  purchasePrice : JsNum
  expiryDate : Option String
deriving DecidableEq, Repr

/-- A validated insert candidate (`ValidatedInventoryItem`). -/
structure Candidate where
  store_id : String
  medicine_id : String
  batch_number : Option String
  quantity : Int
  mrp : Option ℚ
  purchase_price : Option ℚ
  expiry_date : Option String
deriving DecidableEq, Repr

/-- A per-row diagnostic (`RowError`). -/
structure RowError where
  rowNum : Nat
  error : String
  rowData : RawRow
deriving DecidableEq, Repr

/-- The master-medicines catalog rows `(id, name)` consulted by the
`ilike` lookup.  The lookup is modelled as case-insensitive equality
(`ilike` without wildcard characters in the pattern) and, like the
source, takes at most two matches to detect ambiguity. -/
def medLookup (catalog : List (String × String)) (searchName : String) :
    List (String × String) :=
  (catalog.filter (fun m => jsToLower m.2 == jsToLower searchName)).take 2

/-- The body of the per-row `try` block of `processBulkInventory`:
validate one row into an insert candidate or a row-error message.  The
catalog query is modelled as pure (no transport errors). -/
def validateRow (fb : String → Option CivilDate)
    (catalog : List (String × String)) (store_id : String) (item : RawRow) :
    Except String Candidate :=
  match item.medicineName with
  | none => .error "Missing or invalid \x27Medicine Name\x27."
  | some rawName =>
    if jsTrim rawName == "" then .error "Missing or invalid \x27Medicine Name\x27."
    else
      match item.quantity with
      | .missing => .error "Missing or invalid \x27Quantity\x27 (must be a positive number)."
      | .nan => .error "Missing or invalid \x27Quantity\x27 (must be a positive number)."
      | .num q =>
        if q ≤ 0 then .error "Missing or invalid \x27Quantity\x27 (must be a positive number)."
        else
          match medLookup catalog (jsTrim rawName) with
          | [] => .error ("Medicine named \x27" ++ jsTrim rawName ++
              "\x27 not found in master list.")
          | [med] =>
            if truthyStr item.expiryDate && (parseDate fb item.expiryDate).isNone then
              .error ("Invalid \x27Expiry Date\x27 format for value: " ++
                (item.expiryDate.getD ""))
            else
              .ok { store_id := store_id
                    medicine_id := med.1
                    batch_number :=
                      match item.batchNumber with
                      | none => none
                      | some b => if jsTrim b == "" then none else some (jsTrim b)
                    quantity := ⌊q⌋
                    mrp := match item.mrp with | .num v => some v | _ => none
                    purchase_price :=
                      match item.purchasePrice with | .num v => some v | _ => none
                    expiry_date := parseDate fb item.expiryDate }
          | _ => .error ("Multiple medicines found matching \x27" ++ jsTrim rawName ++
              "\x27. Please use a more specific name.")

/-- Whether a row validates (used to count inserted versus skipped rows). -/
def rowOk (fb : String → Option CivilDate) (catalog : List (String × String))
    (store_id : String) (item : RawRow) : Bool :=
  match validateRow fb catalog store_id item with
  | .ok _ => true
  | .error _ => false

/-- The row loop of `processBulkInventory`: every row is classified into
the valid-candidates list or the errors list, in input order; a row error
is caught and recorded, never propagated. -/
def classifyRows (fb : String → Option CivilDate)
    (catalog : List (String × String)) (store_id : String) :
    List RawRow → List Candidate × List RowError
  | [] => ([], [])
  | item :: rest =>
    let acc := classifyRows fb catalog store_id rest
    match validateRow fb catalog store_id item with
    | .ok c => (c :: acc.1, acc.2)
    | .error e => (acc.1, ⟨item.rowNum, e, item⟩ :: acc.2)

/-- Outcome of the single bulk `insert` call: a possibly-absent affected
count on success, or a database error message. -/
inductive InsOut where
  | ok (count : Option Nat)
  | err (msg : String)
deriving DecidableEq, Repr

/-- The JSON result object of a completed bulk import. -/
structure BulkResult where
  success : Bool
  insertedCount : Nat
  skippedCount : Nat
  errors : List RowError
  message : String
deriving DecidableEq, Repr

/-- Request payload of the bulk-import function. -/
structure BulkPayload where
  store_id : String
  inventoryItems : List RawRow
deriving DecidableEq, Repr

/-- The store-ownership check shared by both edge functions: the
`select ... eq(id).eq(user_id).single()` call succeeds exactly when one
row matches. -/
def storeMatches (stores : List (String × String)) (storeId userId : String) :
    List (String × String) :=
  stores.filter (fun s => s.1 == storeId && s.2 == userId)

/-- `processBulkInventory`: ownership check, row loop, single bulk
insert of the valid candidates, detailed result.  `ins` is the outcome
the database gives the bulk insert (consulted only when there is at
least one candidate, as in the source). -/
def processBulkInventory (fb : String → Option CivilDate)
    (stores : List (String × String)) (catalog : List (String × String))
    (ins : InsOut) (userId : String) (payload : BulkPayload) :
    Except String BulkResult :=
  match storeMatches stores payload.store_id userId with
  | [_] =>
    let vs := (classifyRows fb catalog payload.store_id payload.inventoryItems).1
    let es := (classifyRows fb catalog payload.store_id payload.inventoryItems).2
    match vs, ins with
    | _ :: _, .err m =>
      .error ("Database bulk insert failed: " ++ m ++
        ". Some items might not have been added.")
    | _, _ =>
      let insertedCount := match vs, ins with
        | [], _ => 0
        | _ :: _, .ok c => c.getD vs.length
        | _ :: _, .err _ => 0
      .ok { success := es.length == 0 && decide (0 < vs.length)
            insertedCount := insertedCount
            skippedCount := es.length
            errors := es
            message :=
              if 0 < es.length then
                "Processed " ++ natToDec payload.inventoryItems.length ++
                  " rows. Inserted " ++ natToDec insertedCount ++ ", Skipped " ++
                  natToDec es.length ++ "."
              else "Successfully inserted " ++ natToDec insertedCount ++
                " inventory items." }
  | _ => .error "Store verification failed or access denied."

/-! ## Sale transaction processor (`process-sale/index.ts`)

The HTTP handler is embedded as a pure function of: whether the Supabase
environment variables are present, the outcome of bearer-token
authentication, the parsed request body, the `stores` table, and the
outcome of the `create_sale_and_update_inventory` RPC.  With a typed
payload, the dynamic shape checks `typeof payload !== "object"`,
`Array.isArray(payload.items)` and `typeof payload.total_amount ===
"number"` are vacuous; the remaining live check is the truthiness of
`payload.store_id`.
-/

/-- One line item of the sale payload (`SaleItemPayload`). -/
structure SaleItemPayload where
  inventory_id : String
  quantity_sold : Int
  price_per_unit : ℚ
  total_price : ℚ
  medicine_name : String
deriving DecidableEq, Repr

/-- The sale request body (`SalePayload`). -/
structure SalePayload where
  store_id : String
  customer_name : Option String
  total_amount : ℚ
  items : List SaleItemPayload
deriving DecidableEq, Repr

/-- Outcome of bearer-token authentication: the `Authorization` header is
absent, or `auth.getUser` fails on the presented token, or it yields a
user id. -/
inductive AuthOutcome where
  | noHeader
  | invalidToken
  | user (uid : String)
deriving DecidableEq, Repr

/-- One row of the RPC result set; `sale_id` / `bill_number` may be
absent or empty (both falsy). -/
structure RpcRow where
  sale_id : Option String
  bill_number : Option String
deriving DecidableEq, Repr

/-- Outcome of the `supabaseAdminClient.rpc` call: an error message, or a
possibly-`null` result set. -/
inductive RpcOutcome where
  | err (msg : String)
  | ok (data : Option (List RpcRow))
deriving DecidableEq, Repr

/-- HTTP response of the sale handler: the 200 success body, or an error
status with the `message` field of the JSON body. -/
inductive SaleResp where
  | ok (saleId bill_number : String)
  | fail (status : Nat) (message : String)
deriving DecidableEq, Repr

/-- The status computation of the sale handler's `catch` block. -/
def saleStatusFor (msg : String) : Nat :=
  if strIncludes "verification failed" msg ||
      strIncludes "Invalid request payload" msg ||
      strIncludes "Insufficient stock" msg then 400 else 500

/-- Steps 3 and 4 of `processSaleTransaction`: interpret the RPC outcome.
A database error mentioning insufficient stock is translated to the
business-rule message; a success whose first row lacks a truthy
`sale_id` or `bill_number` is an internal error. -/
def rpcToResult : RpcOutcome → Except String (String × String)
  | .err m =>
    if strIncludes "Insufficient stock" m then
      .error "Insufficient stock for one or more items."
    else .error ("Database transaction failed: " ++ m)
  | .ok none => .error "Internal server error: Failed to retrieve sale details after creation."
  | .ok (some rows) =>
    match rows with
    | [] => .error "Internal server error: Failed to retrieve sale details after creation."
    | r :: _ =>
      if truthyStr r.sale_id && truthyStr r.bill_number then
        .ok (r.sale_id.getD "", r.bill_number.getD "")
      else .error "Internal server error: Failed to retrieve sale details after creation."

/-- `processSaleTransaction`: the store-ownership check (performed before
the database call), then the RPC interpretation.  `rpc` is the outcome
the database would give the call. -/
def processSaleTransaction (stores : List (String × String))
    (rpc : RpcOutcome) (userId : String) (payload : SalePayload) :
    Except String (String × String) :=
  match storeMatches stores payload.store_id userId with
  | [_] => rpcToResult rpc
  | _ => .error "Store verification failed or access denied."

/-- The `try` block of the sale handler: `Sum.inl` is a directly-returned
response (the 401 branch and the 200 branch), `Sum.inr` is a thrown error
message for the `catch` block. -/
def saleTry (envOk : Bool) (auth : AuthOutcome) (body : Option SalePayload)
    (stores : List (String × String)) (rpc : RpcOutcome) :
    Sum SaleResp String :=
  if !envOk then .inr "Server configuration error."
  else
    match auth with
    | .noHeader => .inr "Missing Authorization header."
    | .invalidToken => .inl (.fail 401 "Authentication required or token invalid.")
    | .user uid =>
      match body with
      | none => .inr "Request body is missing."
      | some p =>
        if p.store_id == "" then
          .inr "Invalid request payload structure or missing required fields."
        else
          match processSaleTransaction stores rpc uid p with
          | .ok r => .inl (.ok r.1 r.2)
          | .error m => .inr m

/-- The full POST path of the sale handler: the `try` block plus the
`catch` block's status computation. -/
def handleSale (envOk : Bool) (auth : AuthOutcome) (body : Option SalePayload)
    (stores : List (String × String)) (rpc : RpcOutcome) : SaleResp :=
  match saleTry envOk auth body stores rpc with
  | .inl resp => resp
  | .inr msg => .fail (saleStatusFor msg) msg

/-! ## The modelled database transaction

The atomic check-and-decrement lives in the Postgres function
`create_sale_and_update_inventory`, which is not among the repository
sources (only its caller is).  It is modelled below from the
specification.
-/

/-- An `InventoryBatch` row (the fields the transaction touches). -/
structure InventoryBatch where
  id : String
  store_id : String
  quantity : Int
deriving DecidableEq, Repr

/-- A `Sale` row. -/
structure SaleRow where
  sale_id : String
  store_id : String
  bill_number : String
  customer_name : Option String
  total_amount : ℚ
deriving DecidableEq, Repr

/-- A `SaleItem` row. -/
structure SaleItemRow where
  sale_id : String
  inventory_id : String
  medicine_name : String
  quantity_sold : Int
  price_per_unit : ℚ
  total_price : ℚ
deriving DecidableEq, Repr

/-- The relational state the sale transaction reads and writes. -/
structure DbState where
  inventory : List InventoryBatch
  sales : List SaleRow
  sale_items : List SaleItemRow
deriving DecidableEq, Repr

/-- Find the batch a cart item references: by id, belonging to the store. -/
def findBatch (inv : List InventoryBatch) (storeId invId : String) :
    Option InventoryBatch :=
  inv.find? (fun b => b.id == invId && b.store_id == storeId)

/-- Set the quantity of the batch with the given id and store. -/
def updateQty (inv : List InventoryBatch) (storeId invId : String) (q : Int) :
    List InventoryBatch :=
  inv.map (fun b =>
    if b.id == invId && b.store_id == storeId then
      { b with quantity := q }
    else b)

/-- Modelled from the spec: the per-item stock loop of the Postgres
function `create_sale_and_update_inventory` (spec section 4.1 step 4a/4b/4e)
— for each cart item, re-read the referenced batch's current quantity
(the batch must belong to the store), abort with an insufficient-stock
error if it is below the requested `quantity_sold`, and otherwise
decrement it; items are handled sequentially inside the one transaction. -/
def sellItems (storeId : String) :
    List InventoryBatch → List SaleItemPayload → Except String (List InventoryBatch)
  | inv, [] => .ok inv
  | inv, it :: rest =>
    match findBatch inv storeId it.inventory_id with
    | none => .error ("Inventory batch not found for item " ++ it.medicine_name ++ ".")
    | some b =>
      if b.quantity < it.quantity_sold then
        .error ("Insufficient stock for item " ++ it.medicine_name ++ ".")
      else
        sellItems storeId (updateQty inv storeId it.inventory_id (b.quantity - it.quantity_sold)) rest

/-- Modelled from the spec: the Postgres function
`create_sale_and_update_inventory` (spec section 4.1 step 4, not present in
the repository sources).  Within one atomic transaction it checks and
decrements the stock of every cart item, inserts one `Sale` row with the
generated bill number, inserts one `SaleItem` row per cart entry, and
returns the new sale id and the bill number.  Failure of any step aborts
the whole transaction, so the caller's state is unchanged on error. -/
def create_sale_and_update_inventory (st : DbState) (pStoreId : String)
    (pCustomer : Option String) (pTotal : ℚ) (pItems : List SaleItemPayload)
    (pBill : String) : Except String (DbState × String × String) :=
  match sellItems pStoreId st.inventory pItems with
  | .error e => .error e
  | .ok inv2 =>
    let saleId := "sale-" ++ natToDec st.sales.length
    .ok ({ inventory := inv2
           sales := st.sales ++ [⟨saleId, pStoreId, pBill, pCustomer, pTotal⟩]
           sale_items := st.sale_items ++ pItems.map (fun it =>
             ⟨saleId, it.inventory_id, it.medicine_name, it.quantity_sold,
               it.price_per_unit, it.total_price⟩) },
         saleId, pBill)

/-- The sale handler running against the modelled database transaction:
the response produced and the database state left behind.  Every path
that does not reach the RPC leaves the state untouched; the RPC path
commits exactly when the modelled transaction succeeds. -/
def handleSaleSystem (envOk : Bool) (auth : AuthOutcome)
    (body : Option SalePayload) (stores : List (String × String))
    (st : DbState) (billNo : String) : SaleResp × DbState :=
  if !envOk then (.fail 500 "Server configuration error.", st)
  else
    match auth with
    | .noHeader => (.fail 500 "Missing Authorization header.", st)
    | .invalidToken => (.fail 401 "Authentication required or token invalid.", st)
    | .user uid =>
      match body with
      | none => (.fail 500 "Request body is missing.", st)
      | some p =>
        if p.store_id == "" then
          (.fail 400 "Invalid request payload structure or missing required fields.", st)
        else
          match storeMatches stores p.store_id uid with
          | [_] =>
            match create_sale_and_update_inventory st p.store_id p.customer_name
                p.total_amount p.items billNo with
            | .ok r =>
              match rpcToResult (.ok (some [⟨some r.2.1, some r.2.2⟩])) with
              | .ok s => (.ok s.1 s.2, r.1)
              | .error m => (.fail (saleStatusFor m) m, r.1)
            | .error m =>
              match rpcToResult (.err m) with
              | .ok s => (.ok s.1 s.2, st)
              | .error m2 => (.fail (saleStatusFor m2) m2, st)
          | _ =>
            (.fail (saleStatusFor "Store verification failed or access denied.")
              "Store verification failed or access denied.", st)

/-- Apply one sale request to the modelled database, recording whether it
was accepted; a rejected request leaves the state unchanged (transaction
rollback). -/
def applyOne (st : DbState) (p : SalePayload) (billNo : String) : DbState × Bool :=
  match create_sale_and_update_inventory st p.store_id p.customer_name
      p.total_amount p.items billNo with
  | .ok r => (r.1, true)
  | .error _ => (st, false)

/-- Run a list of sale requests sequentially — per spec section 5, the
store serializes the concurrent transactions, so any concurrent execution
is equivalent to some such sequential order. -/
def runSales (st : DbState) : List SalePayload → DbState × List Bool
  | [] => (st, [])
  | p :: ps =>
    let r1 := applyOne st p "BILL"
    let r2 := runSales r1.1 ps
    (r2.1, r1.2 :: r2.2)

/-- The quantity the cart sells against batch `b` (summing the line items
that reference it). -/
def soldFor (b : String) (items : List SaleItemPayload) : Int :=
  ((items.filter (fun it => it.inventory_id == b)).map (fun it => it.quantity_sold)).sum

/-- Total quantity sold against batch `b` by the accepted requests of a
run (`accs` are the per-request acceptance flags). -/
def acceptedSold (b : String) : List SalePayload → List Bool → Int
  | [], _ => 0
  | _, [] => 0
  | p :: ps, a :: as => (if a then soldFor b p.items else 0) + acceptedSold b ps as

/-- The current quantity of the batch with id `b`, if it exists. -/
def qtyOf (inv : List InventoryBatch) (b : String) : Option Int :=
  (inv.find? (fun x => x.id == b)).map (fun x => x.quantity)

/-- HTTP response of the bulk-import handler: a 200 with the detailed
result object, or an error status with the `message` of the error body. -/
inductive BulkResp where
  | result (status : Nat) (r : BulkResult)
  | failure (status : Nat) (message : String)
deriving DecidableEq, Repr

/-- The status computation of the bulk handler's `catch` block. -/
def bulkStatusFor (msg : String) : Nat :=
  if strIncludes "verification failed" msg ||
      strIncludes "Invalid request payload" msg then 400 else 500

/-- The full POST path of the bulk-import handler: environment check,
authentication, body checks, then `processBulkInventory`; a normal return
is always status 200, even when some rows failed. -/
def handleBulk (fb : String → Option CivilDate)
    (stores catalog : List (String × String)) (ins : InsOut) (envOk : Bool)
    (auth : AuthOutcome) (body : Option BulkPayload) : BulkResp :=
  if !envOk then .failure (bulkStatusFor "Server config error.") "Server config error."
  else
    match auth with
    | .noHeader => .failure (bulkStatusFor "Auth header missing.") "Auth header missing."
    | .invalidToken => .failure 401 "Authentication failed."
    | .user uid =>
      match body with
      | none => .failure (bulkStatusFor "Missing request body.") "Missing request body."
      | some p =>
        if p.store_id == "" then
          .failure (bulkStatusFor "Invalid request payload structure.")
            "Invalid request payload structure."
        else
          match processBulkInventory fb stores catalog ins uid p with
          | .ok r => .result 200 r
          | .error m => .failure (bulkStatusFor m) m

/-! ## Lemmas: decimal digits -/

/-- Digit characters decode to their digit value. -/
theorem digitVal_digitChar : ∀ d : Nat, d < 10 → digitVal (Nat.digitChar d) = d := by
  decide

/-- Digit characters satisfy the `\d` character class. -/
theorem isDigit_digitChar : ∀ d : Nat, d < 10 → (Nat.digitChar d).isDigit = true := by
  decide

/-- `parseInt` over an extra trailing digit. -/
theorem toNumL_append (cs : List Char) (c : Char) :
    toNumL (cs ++ [c]) = 10 * toNumL cs + digitVal c := by
  simp [toNumL, List.foldl_append]

/-- Every entry of `digitsFuelLE` is a digit. -/
theorem digitsFuelLE_lt : ∀ f n : Nat, ∀ x ∈ digitsFuelLE f n, x < 10 := by
  intro f
  induction f with
  | zero => intro n x hx; simp [digitsFuelLE] at hx
  | succ f ih =>
    intro n x hx
    by_cases h0 : n = 0
    · simp [digitsFuelLE, h0] at hx
    · rw [digitsFuelLE, if_neg h0] at hx
      rcases List.mem_cons.mp hx with h | h
      · subst h; exact Nat.mod_lt _ (by omega)
      · exact ih _ _ h

/-- With sufficient fuel, `parseInt` inverts the digit rendering. -/
theorem toNumL_digitsFuelLE : ∀ f n : Nat, n ≤ f →
    toNumL (((digitsFuelLE f n).map Nat.digitChar).reverse) = n := by
  intro f
  induction f with
  | zero =>
    intro n hn
    have : n = 0 := by omega
    subst this; rfl
  | succ f ih =>
    intro n hn
    by_cases h0 : n = 0
    · subst h0; rfl
    · rw [digitsFuelLE, if_neg h0, List.map_cons, List.reverse_cons, toNumL_append,
        ih (n / 10) (by omega), digitVal_digitChar _ (Nat.mod_lt _ (by omega))]
      omega

/-- `parseInt` inverts the decimal rendering of a natural number. -/
theorem toNumL_natDecChars (n : Nat) : toNumL (natDecChars n) = n := by
  by_cases h : n = 0
  · subst h; rfl
  · rw [natDecChars, if_neg h]
    exact toNumL_digitsFuelLE n n le_rfl

/-- The digit rendering of `n < 10 ^ k` has at most `k` digits. -/
theorem digitsFuelLE_len_le : ∀ f n k : Nat, n < 10 ^ k →
    (digitsFuelLE f n).length ≤ k := by
  intro f
  induction f with
  | zero => intro n k _; simp [digitsFuelLE]
  | succ f ih =>
    intro n k hk
    by_cases h0 : n = 0
    · simp [digitsFuelLE, h0]
    · rw [digitsFuelLE, if_neg h0]
      rcases k with _ | k
      · omega
      · have : n / 10 < 10 ^ k := by
          have := Nat.pow_succ 10 k
          omega
        simpa using ih (n / 10) k this

/-- The digit rendering of `n ≥ 10 ^ k` has more than `k` digits. -/
theorem digitsFuelLE_len_ge : ∀ f n k : Nat, n ≤ f → 10 ^ k ≤ n →
    k < (digitsFuelLE f n).length := by
  intro f
  induction f with
  | zero =>
    intro n k hn hk
    have h1 : 0 < 10 ^ k := Nat.pos_pow_of_pos k (by omega)
    omega
  | succ f ih =>
    intro n k hn hk
    have h1 : 0 < 10 ^ k := Nat.pos_pow_of_pos k (by omega)
    have h0 : n ≠ 0 := by omega
    rw [digitsFuelLE, if_neg h0]
    rcases k with _ | k
    · simp
    · have hdiv : 10 ^ k ≤ n / 10 := by
        rw [Nat.le_div_iff_mul_le (by omega)]
        have := Nat.pow_succ 10 k
        omega
      have hfuel : n / 10 ≤ f := by
        have := Nat.div_lt_self (by omega : 0 < n) (by omega : 1 < 10)
        omega
      simpa using ih (n / 10) k hfuel hdiv

/-- A four-digit year renders to four characters. -/
theorem natDecChars_len4 {y : Nat} (h1 : 1000 ≤ y) (h2 : y ≤ 9999) :
    (natDecChars y).length = 4 := by
  rw [natDecChars, if_neg (by omega : ¬y = 0)]
  have hle := digitsFuelLE_len_le y y 4 (by norm_num; omega)
  have hge := digitsFuelLE_len_ge y y 3 le_rfl (by norm_num; omega)
  simp only [List.length_reverse, List.length_map]
  omega

/-- Every character of the decimal rendering is a digit. -/
theorem natDecChars_digits (n : Nat) : ∀ c ∈ natDecChars n, c.isDigit = true := by
  intro c hc
  by_cases h : n = 0
  · subst h
    simp [natDecChars] at hc
    subst hc; rfl
  · rw [natDecChars, if_neg h] at hc
    rw [List.mem_reverse, List.mem_map] at hc
    obtain ⟨d, hd, rfl⟩ := hc
    exact isDigit_digitChar d (digitsFuelLE_lt n n d hd)

/-- `pad2` always renders a two-digit value to exactly two characters. -/
theorem pad2_len : ∀ m : Nat, m < 100 → (pad2 m).data.length = 2 := by decide

/-- `pad2` renders only digit characters. -/
theorem pad2_digits : ∀ m : Nat, m < 100 → ((pad2 m).data.all Char.isDigit) = true := by
  decide

/-- `parseInt` inverts `pad2`. -/
theorem pad2_val : ∀ m : Nat, m < 100 → toNumL (pad2 m).data = m := by decide

/-! ## Lemmas: the civil-date model -/

/-- `Date.UTC` is the identity on in-range dates with four-digit years
(no two-digit-year mapping, no month or day carrying). -/
theorem dateUTC_id (y m d : Nat) (hy : 100 ≤ y) (hm1 : 1 ≤ m) (hm2 : m ≤ 12)
    (hd1 : 1 ≤ d) (hd2 : d ≤ daysInMonth (y : Int) m) :
    dateUTC (y : Int) ((m : Int) - 1) (d : Int) = ⟨(y : Int), m, d⟩ := by
  unfold dateUTC monthNorm
  rw [if_neg (by omega : ¬(0 ≤ (y : Int) ∧ (y : Int) ≤ 99))]
  have he1 : ((m : Int) - 1).ediv 12 = 0 :=
    Int.ediv_eq_zero_of_lt (by omega) (by omega)
  have he2 : ((m : Int) - 1).emod 12 = (m : Int) - 1 :=
    Int.emod_eq_of_lt (by omega) (by omega)
  simp only [he1, he2, add_zero]
  have hm : ((m : Int) - 1).toNat + 1 = m := by omega
  rw [hm]
  rw [show (40 : Nat) = 39 + 1 from rfl, dayNorm]
  rw [if_neg (by omega : ¬(d : Int) < 1)]
  rw [if_neg (by omega : ¬(daysInMonth (y : Int) m : Int) < (d : Int))]
  simp

/-- Destructure a list of length two. -/
theorem length2_eq {α : Type} {l : List α} (h : l.length = 2) :
    ∃ a b, l = [a, b] := by
  rcases l with _ | ⟨a, l⟩
  · simp at h
  rcases l with _ | ⟨b, l⟩
  · simp at h
  rcases l with _ | ⟨c, l⟩
  · exact ⟨a, b, rfl⟩
  · simp at h

/-- Destructure a list of length four. -/
theorem length4_eq {α : Type} {l : List α} (h : l.length = 4) :
    ∃ a b c d, l = [a, b, c, d] := by
  rcases l with _ | ⟨a, l⟩
  · simp at h
  rcases l with _ | ⟨b, l⟩
  · simp at h
  rcases l with _ | ⟨c, l⟩
  · simp at h
  rcases l with _ | ⟨d, l⟩
  · simp at h
  rcases l with _ | ⟨e, l⟩
  · exact ⟨a, b, c, d, rfl⟩
  · simp at h

/-- No month has more than 31 days. -/
theorem daysInMonth_le31 (y : Int) (m : Nat) : daysInMonth y m ≤ 31 := by
  unfold daysInMonth
  split <;> first | omega | split <;> omega

/-- The character-list rendering of `isoStr` for four-digit years. -/
theorem isoStr_data {y m d : Nat} (hy1 : 1000 ≤ y) (hy2 : y ≤ 9999) :
    (isoStr y m d).data =
      natDecChars y ++ '-' :: (pad2 m).data ++ '-' :: (pad2 d).data := by
  unfold isoStr
  rw [if_neg (by omega : ¬y < 1000)]
  simp [String.data_append, natToDec]

/-- C8 (amended): the date parser round-trips ISO dates with four-digit
years: for every valid calendar date with `1000 ≤ year ≤ 9999`, feeding
its `YYYY-MM-DD` rendering into `parseDate` yields the identical string,
whatever the generic-fallback parser does.  (Years below 1000 do not
round-trip: the output year is printed unpadded, and year arguments 0–99
are mapped into 1900–1999 by `Date.UTC`.) -/
theorem claim_C8_parseDate_roundtrip (fb : String → Option CivilDate)
    (y m d : Nat) (hy1 : 1000 ≤ y) (hy2 : y ≤ 9999) (hm1 : 1 ≤ m)
    (hm2 : m ≤ 12) (hd1 : 1 ≤ d) (hd2 : d ≤ daysInMonth (y : Int) m) :
    parseDate fb (some (isoStr y m d)) = some (isoStr y m d) := by
  have hd31 : d ≤ 31 := le_trans hd2 (daysInMonth_le31 _ _)
  obtain ⟨a, b, c, d4, hy4⟩ := length4_eq (natDecChars_len4 hy1 hy2)
  obtain ⟨e, f, hem⟩ := length2_eq (pad2_len m (by omega))
  obtain ⟨g, h, hgd⟩ := length2_eq (pad2_len d (by omega))
  have hs : (isoStr y m d).data =
      a :: b :: c :: d4 :: '-' :: e :: f :: '-' :: g :: h :: [] := by
    rw [isoStr_data hy1 hy2, hy4, hem, hgd]
    simp
  have hne : (isoStr y m d == "") = false := by
    rw [beq_eq_false_iff_ne]
    intro hcontra
    rw [hcontra] at hs
    simp at hs
  have hda : a.isDigit = true := natDecChars_digits y a (by rw [hy4]; simp)
  have hdb : b.isDigit = true := natDecChars_digits y b (by rw [hy4]; simp)
  have hdc : c.isDigit = true := natDecChars_digits y c (by rw [hy4]; simp)
  have hdd : d4.isDigit = true := natDecChars_digits y d4 (by rw [hy4]; simp)
  have hpm := pad2_digits m (by omega)
  rw [hem] at hpm
  simp only [List.all_cons, List.all_nil, Bool.and_true, Bool.and_eq_true] at hpm
  have hpd := pad2_digits d (by omega)
  rw [hgd] at hpd
  simp only [List.all_cons, List.all_nil, Bool.and_true, Bool.and_eq_true] at hpd
  have hvy : toNumL [a, b, c, d4] = y := by rw [← hy4]; exact toNumL_natDecChars y
  have hvm : toNumL [e, f] = m := by
    have := pad2_val m (by omega)
    rw [hem] at this
    exact this
  have hvd : toNumL [g, h] = d := by
    have := pad2_val d (by omega)
    rw [hgd] at this
    exact this
  rw [parseDate, hne]
  simp only [Bool.false_eq_true, if_false, hs, parseChars, hda, hdb, hdc, hdd,
    hpm.1, hpm.2, hpd.1, hpd.2, Bool.and_self, Bool.true_and, Bool.and_true,
    beq_self_eq_true, if_true]
  rw [hvy, hvm, hvd]
  rw [dateUTC_id y m d (by omega) hm1 hm2 hd1 hd2]
  refine congrArg some (String.ext ?_)
  rw [isoStr_data hy1 hy2]
  unfold fmtCivil intToDec
  rw [if_neg (by omega : ¬(y : Int) < 0)]
  simp [String.data_append, natToDec]

/-- C8 counterexample: `"0123-05-10"` is a valid calendar date in
`YYYY-MM-DD` form, but the parser returns `"123-05-10"` — the year comes
back unpadded, so the round-trip of the claim fails as stated. -/
theorem claim_C8_counterexample :
    parseDate fbNone (some "0123-05-10") = some "123-05-10" ∧
    parseDate fbNone (some "0123-05-10") ≠ some "0123-05-10" := by
  constructor
  · rfl
  · decide

/-- C8 witness: the round-trip theorem applied to 2024-02-29. -/
theorem claim_C8_witness :
    parseDate fbNone (some (isoStr 2024 2 29)) = some (isoStr 2024 2 29) :=
  claim_C8_parseDate_roundtrip fbNone 2024 2 29 (by norm_num) (by norm_num)
    (by norm_num) (by norm_num) (by norm_num) (by decide)

/-- C9: the parser reads only the first ten characters of a string whose
head matches the `YYYY-MM-DD` digit pattern (trailing text is ignored);
out-of-range month or day components are normalized by calendar rollover,
so `2024-02-31` yields `2024-03-02`; and a bulk-import row carrying such
an expiry date is accepted as an insert candidate with the rolled-over
date, rather than receiving a row error. -/
theorem claim_C9_parseDate_head_and_rollover :
    (∀ (fb : String → Option CivilDate) (c1 c2 c3 c4 c5 c6 c7 c8 : Char)
        (rest : List Char),
      c1.isDigit = true → c2.isDigit = true → c3.isDigit = true →
      c4.isDigit = true → c5.isDigit = true → c6.isDigit = true →
      c7.isDigit = true → c8.isDigit = true →
      parseDate fb
          (some ⟨c1 :: c2 :: c3 :: c4 :: '-' :: c5 :: c6 :: '-' :: c7 :: c8 :: rest⟩) =
        parseDate fb (some ⟨[c1, c2, c3, c4, '-', c5, c6, '-', c7, c8]⟩)) ∧
    parseDate fbNone (some "2024-02-31") = some "2024-03-02" ∧
    validateRow fbNone [("med1", "Paracetamol")] "S1"
        ⟨1, some "Paracetamol", none, JsNum.num 10, JsNum.missing, JsNum.missing,
          some "2024-02-31"⟩ =
      .ok ⟨"S1", "med1", none, 10, none, none, some "2024-03-02"⟩ := by
  refine ⟨?_, rfl, rfl⟩
  intro fb c1 c2 c3 c4 c5 c6 c7 c8 rest h1 h2 h3 h4 h5 h6 h7 h8
  have hne1 : ((⟨c1 :: c2 :: c3 :: c4 :: '-' :: c5 :: c6 :: '-' :: c7 :: c8 :: rest⟩ :
      String) == "") = false := by
    rw [beq_eq_false_iff_ne]
    intro hc
    have := congrArg String.data hc
    simp at this
  have hne2 : ((⟨[c1, c2, c3, c4, '-', c5, c6, '-', c7, c8]⟩ : String) == "") = false := by
    rw [beq_eq_false_iff_ne]
    intro hc
    have := congrArg String.data hc
    simp at this
  rw [parseDate, parseDate, hne1, hne2]
  simp only [Bool.false_eq_true, if_false]
  show parseChars fb _ (c1 :: c2 :: c3 :: c4 :: '-' :: c5 :: c6 :: '-' :: c7 :: c8 :: rest) =
    parseChars fb _ (c1 :: c2 :: c3 :: c4 :: '-' :: c5 :: c6 :: '-' :: c7 :: c8 :: [])
  simp only [parseChars, h1, h2, h3, h4, h5, h6, h7, h8, beq_self_eq_true,
    Bool.and_self, Bool.true_and, Bool.and_true, if_true]

/-- C9 witness: the head-only behaviour applied to a concrete string with
trailing text, and the concrete rollover facts. -/
theorem claim_C9_witness :
    parseDate fbNone (some "2024-02-31T09:15") = parseDate fbNone (some "2024-02-31") :=
  claim_C9_parseDate_head_and_rollover.1 fbNone '2' '0' '2' '4' '0' '2' '3' '1'
    ['T', '0', '9', ':', '1', '5'] rfl rfl rfl rfl rfl rfl rfl rfl

/-! ## Claims about the bulk validator -/

/-- C5 (amended): a row's quantity must be a positive number — missing,
non-numeric, or non-positive quantities receive a row error — and the
accepted candidate carries `Math.floor` of that number, which is a
non-negative integer, but is `0` (not positive) whenever the quantity is
a fraction below one: the positivity check precedes the truncation. -/
theorem claim_C5_quantity_floor :
    (∀ (fb : String → Option CivilDate) (catalog : List (String × String))
        (sid : String) (item : RawRow) (c : Candidate),
      validateRow fb catalog sid item = .ok c →
      ∃ q : ℚ, item.quantity = JsNum.num q ∧ 0 < q ∧ c.quantity = ⌊q⌋ ∧
        0 ≤ c.quantity) ∧
    (∀ (fb : String → Option CivilDate) (catalog : List (String × String))
        (sid : String) (item : RawRow),
      (item.quantity = JsNum.missing ∨ item.quantity = JsNum.nan ∨
        ∃ q : ℚ, item.quantity = JsNum.num q ∧ q ≤ 0) →
      ∃ e, validateRow fb catalog sid item = .error e) := by
  constructor
  · intro fb catalog sid item c h
    obtain ⟨rn, mn, bn, qt, mr, pp, ed⟩ := item
    unfold validateRow at h
    dsimp only at h ⊢
    rcases mn with _ | rawName
    · simp at h
    · dsimp only at h
      split at h
      · simp at h
      · rcases qt with _ | _ | q
        · simp at h
        · simp at h
        · dsimp only at h
          split at h
          · simp at h
          · rename_i hqpos
            split at h
            · simp at h
            · split at h
              · simp at h
              · injection h with h2
                subst h2
                refine ⟨q, rfl, not_le.mp hqpos, rfl, ?_⟩
                show (0 : Int) ≤ ⌊q⌋
                rw [Int.le_floor]
                exact_mod_cast le_of_lt (not_le.mp hqpos)
            · simp at h
  · intro fb catalog sid item hbad
    unfold validateRow
    rcases hmn : item.medicineName with _ | rawName
    · exact ⟨_, rfl⟩
    · dsimp only
      by_cases htrim : (jsTrim rawName == "") = true
      · rw [if_pos htrim]
        exact ⟨_, rfl⟩
      · rw [if_neg htrim]
        rcases hbad with hb | hb | ⟨q, hb, hq0⟩ <;> rw [hb]
        · exact ⟨_, rfl⟩
        · exact ⟨_, rfl⟩
        · dsimp only
          rw [if_pos hq0]
          exact ⟨_, rfl⟩

/-- C5 counterexample: a row whose quantity is the positive fraction
`1/2` does not receive a row error — it becomes an insert candidate, and
the candidate's quantity is `0`, which is not a positive integer. -/
theorem claim_C5_counterexample :
    validateRow fbNone [("med1", "Paracetamol")] "S1"
        ⟨2, some "Paracetamol", none, JsNum.num (mkRat 1 2), JsNum.missing,
          JsNum.missing, none⟩ =
      .ok ⟨"S1", "med1", none, 0, none, none, none⟩ ∧ ¬(0 : Int) < 0 := by
  exact ⟨rfl, by omega⟩

/-- C5 witness: the amended theorem applied to that same accepted row. -/
theorem claim_C5_witness :
    ∃ q : ℚ,
      (⟨2, some "Paracetamol", none, JsNum.num (mkRat 1 2), JsNum.missing,
          JsNum.missing, none⟩ : RawRow).quantity = JsNum.num q ∧ 0 < q ∧
      (⟨"S1", "med1", none, 0, none, none, none⟩ : Candidate).quantity = ⌊q⌋ ∧
      0 ≤ (⟨"S1", "med1", none, 0, none, none, none⟩ : Candidate).quantity :=
  claim_C5_quantity_floor.1 fbNone [("med1", "Paracetamol")] "S1" _ _ rfl

/-- A row that validates counts as ok. -/
theorem rowOk_of_ok {fb : String → Option CivilDate}
    {catalog : List (String × String)} {sid : String} {r : RawRow}
    {c : Candidate} (h : validateRow fb catalog sid r = .ok c) :
    rowOk fb catalog sid r = true := by
  simp [rowOk, h]

/-- A row that fails validation counts as not ok. -/
theorem rowOk_of_err {fb : String → Option CivilDate}
    {catalog : List (String × String)} {sid : String} {r : RawRow}
    {e : String} (h : validateRow fb catalog sid r = .error e) :
    rowOk fb catalog sid r = false := by
  simp [rowOk, h]

/-- The row loop partitions: the candidate list counts the rows that
validate, the error list counts the rows that do not. -/
theorem classifyRows_length (fb : String → Option CivilDate)
    (catalog : List (String × String)) (sid : String) (rows : List RawRow) :
    (classifyRows fb catalog sid rows).1.length = rows.countP (rowOk fb catalog sid) ∧
    (classifyRows fb catalog sid rows).2.length =
      rows.countP (fun r => !rowOk fb catalog sid r) := by
  induction rows with
  | nil => simp [classifyRows]
  | cons r rest ih =>
    rw [classifyRows]
    rcases hv : validateRow fb catalog sid r with e | c
    · simp only [hv, List.countP_cons, List.length_cons, rowOk_of_err hv]
      simp [ih.1, ih.2]
    · simp only [hv, List.countP_cons, List.length_cons, rowOk_of_ok hv]
      simp [ih.1, ih.2]

/-- When the store check passes and the bulk insert does not fail, the
bulk processor returns the detailed result (no exception), whatever mix
of valid and invalid rows was submitted. -/
theorem processBulkInventory_insOk (fb : String → Option CivilDate)
    (stores catalog : List (String × String)) (cnt : Option Nat) (uid : String)
    (p : BulkPayload) (s0 : String × String)
    (hs : storeMatches stores p.store_id uid = [s0]) :
    ∃ r : BulkResult,
      processBulkInventory fb stores catalog (.ok cnt) uid p = .ok r ∧
      r.success = ((classifyRows fb catalog p.store_id p.inventoryItems).2.length == 0 &&
        decide (0 < (classifyRows fb catalog p.store_id p.inventoryItems).1.length)) ∧
      r.insertedCount =
        (match (classifyRows fb catalog p.store_id p.inventoryItems).1 with
         | [] => 0
         | _ :: _ => cnt.getD (classifyRows fb catalog p.store_id p.inventoryItems).1.length) ∧
      r.skippedCount = (classifyRows fb catalog p.store_id p.inventoryItems).2.length ∧
      r.errors = (classifyRows fb catalog p.store_id p.inventoryItems).2 := by
  unfold processBulkInventory
  rw [hs]
  rcases hv : (classifyRows fb catalog p.store_id p.inventoryItems).1 with _ | ⟨c0, vr⟩ <;>
    exact ⟨_, rfl, rfl, rfl, rfl, rfl⟩

/-- C6: when per-row processing and the final bulk insert complete, the
bulk handler responds 200 (even with row errors) and the body satisfies
the result contract: `success` holds exactly when the error list is empty
and `insertedCount` is positive, `insertedCount` is the number of rows
that validated, `skippedCount` the number that did not, and the two add
up to the number of input rows.  (The count a successful insert reports
is the number of inserted rows when present, and is absent otherwise.) -/
theorem claim_C6_bulk_result_contract (fb : String → Option CivilDate)
    (stores catalog : List (String × String)) (cnt : Option Nat) (uid : String)
    (p : BulkPayload) (s0 : String × String)
    (hstore : storeMatches stores p.store_id uid = [s0]) (hsid : p.store_id ≠ "")
    (hcnt : cnt = none ∨
      cnt = some (classifyRows fb catalog p.store_id p.inventoryItems).1.length) :
    ∃ r : BulkResult,
      handleBulk fb stores catalog (.ok cnt) true (.user uid) (some p) =
        .result 200 r ∧
      (r.success = true ↔ (r.errors = [] ∧ 0 < r.insertedCount)) ∧
      r.insertedCount = p.inventoryItems.countP (rowOk fb catalog p.store_id) ∧
      r.skippedCount = p.inventoryItems.countP (fun row => !rowOk fb catalog p.store_id row) ∧
      r.insertedCount + r.skippedCount = p.inventoryItems.length := by
  obtain ⟨r, hr, hsucc, hic, hsk, herr⟩ :=
    processBulkInventory_insOk fb stores catalog cnt uid p s0 hstore
  have hlen := classifyRows_length fb catalog p.store_id p.inventoryItems
  have hic2 : r.insertedCount =
      (classifyRows fb catalog p.store_id p.inventoryItems).1.length := by
    rw [hic]
    rcases hv : (classifyRows fb catalog p.store_id p.inventoryItems).1 with _ | ⟨c0, vr⟩
    · simp
    · rcases hcnt with hc | hc <;> rw [hc] <;> simp [hv]
  refine ⟨r, ?_, ?_, ?_, ?_, ?_⟩
  · have hb : (p.store_id == "") = false := beq_eq_false_iff_ne.mpr hsid
    unfold handleBulk
    simp only [Bool.not_true, Bool.false_eq_true, if_false, hb, hr]
  · rw [hsucc, herr, hic2]
    simp only [Bool.and_eq_true, beq_iff_eq, decide_eq_true_eq, List.length_eq_zero]
  · rw [hic2, hlen.1]
  · rw [hsk, hlen.2]
  · rw [hic2, hsk, hlen.1, hlen.2]
    have h := List.length_eq_countP_add_countP (l := p.inventoryItems)
      (p := rowOk fb catalog p.store_id)
    have hfun : (fun a : RawRow => decide (¬rowOk fb catalog p.store_id a = true)) =
        (fun a => !rowOk fb catalog p.store_id a) := by
      funext a
      cases rowOk fb catalog p.store_id a <;> simp
    rw [hfun] at h
    omega

/-- C6 witness: the result contract applied to a concrete batch of three
rows — one valid, one with an unknown medicine, one with an unparseable
expiry date. -/
theorem claim_C6_witness :
    ∃ r : BulkResult,
      handleBulk fbNone [("S1", "U1")] [("med1", "Paracetamol")] (.ok none) true
          (.user "U1")
          (some ⟨"S1",
            [⟨1, some "Paracetamol", none, JsNum.num 5, JsNum.missing, JsNum.missing, none⟩,
             ⟨2, some "Nonexistium", none, JsNum.num 3, JsNum.missing, JsNum.missing, none⟩,
             ⟨3, some "Paracetamol", none, JsNum.num 2, JsNum.missing, JsNum.missing,
               some "bad-date"⟩]⟩) = .result 200 r ∧
      (r.success = true ↔ (r.errors = [] ∧ 0 < r.insertedCount)) ∧
      r.insertedCount =
        (⟨"S1",
          [⟨1, some "Paracetamol", none, JsNum.num 5, JsNum.missing, JsNum.missing, none⟩,
           ⟨2, some "Nonexistium", none, JsNum.num 3, JsNum.missing, JsNum.missing, none⟩,
           ⟨3, some "Paracetamol", none, JsNum.num 2, JsNum.missing, JsNum.missing,
             some "bad-date"⟩]⟩ : BulkPayload).inventoryItems.countP
          (rowOk fbNone [("med1", "Paracetamol")] "S1") ∧
      r.skippedCount =
        (⟨"S1",
          [⟨1, some "Paracetamol", none, JsNum.num 5, JsNum.missing, JsNum.missing, none⟩,
           ⟨2, some "Nonexistium", none, JsNum.num 3, JsNum.missing, JsNum.missing, none⟩,
           ⟨3, some "Paracetamol", none, JsNum.num 2, JsNum.missing, JsNum.missing,
             some "bad-date"⟩]⟩ : BulkPayload).inventoryItems.countP
          (fun row => !rowOk fbNone [("med1", "Paracetamol")] "S1" row) ∧
      r.insertedCount + r.skippedCount =
        (⟨"S1",
          [⟨1, some "Paracetamol", none, JsNum.num 5, JsNum.missing, JsNum.missing, none⟩,
           ⟨2, some "Nonexistium", none, JsNum.num 3, JsNum.missing, JsNum.missing, none⟩,
           ⟨3, some "Paracetamol", none, JsNum.num 2, JsNum.missing, JsNum.missing,
             some "bad-date"⟩]⟩ : BulkPayload).inventoryItems.length :=
  claim_C6_bulk_result_contract fbNone [("S1", "U1")] [("med1", "Paracetamol")] none
    "U1" _ ("S1", "U1") rfl (by decide) (Or.inl rfl)

/-- C7: bulk rows are processed independently — every row that validates
ends up among the insert candidates no matter what other rows (malformed
or not) sit in the same batch; every row that fails validation is
collected as a row error rather than thrown; and a batch whose store
check and final insert succeed always completes with a 200 result. -/
theorem claim_C7_row_independence :
    (∀ (fb : String → Option CivilDate) (catalog : List (String × String))
        (sid : String) (rows : List RawRow) (r : RawRow) (v : Candidate),
      r ∈ rows → validateRow fb catalog sid r = .ok v →
      v ∈ (classifyRows fb catalog sid rows).1) ∧
    (∀ (fb : String → Option CivilDate) (catalog : List (String × String))
        (sid : String) (rows : List RawRow) (r : RawRow) (e : String),
      r ∈ rows → validateRow fb catalog sid r = .error e →
      (⟨r.rowNum, e, r⟩ : RowError) ∈ (classifyRows fb catalog sid rows).2) ∧
    (∀ (fb : String → Option CivilDate) (stores catalog : List (String × String))
        (cnt : Option Nat) (uid : String) (p : BulkPayload) (s0 : String × String),
      storeMatches stores p.store_id uid = [s0] → p.store_id ≠ "" →
      ∃ res : BulkResult,
        handleBulk fb stores catalog (.ok cnt) true (.user uid) (some p) =
          .result 200 res) := by
  refine ⟨?_, ?_, ?_⟩
  · intro fb catalog sid rows
    induction rows with
    | nil =>
      intro r v hr _
      simp at hr
    | cons a rest ih =>
      intro r v hr hv
      rw [classifyRows]
      rcases List.mem_cons.mp hr with h | h
      · subst h
        simp only [hv]
        simp
      · rcases hva : validateRow fb catalog sid a with e2 | c2
        · simp only [hva]
          exact ih r v h hv
        · simp only [hva]
          exact List.mem_cons_of_mem _ (ih r v h hv)
  · intro fb catalog sid rows
    induction rows with
    | nil =>
      intro r e hr _
      simp at hr
    | cons a rest ih =>
      intro r e hr hv
      rw [classifyRows]
      rcases List.mem_cons.mp hr with h | h
      · subst h
        simp only [hv]
        simp
      · rcases hva : validateRow fb catalog sid a with e2 | c2
        · simp only [hva]
          exact List.mem_cons_of_mem _ (ih r e h hv)
        · simp only [hva]
          exact ih r e h hv
  · intro fb stores catalog cnt uid p s0 hs hsid
    obtain ⟨r, hr, -, -, -, -⟩ :=
      processBulkInventory_insOk fb stores catalog cnt uid p s0 hs
    have hb : (p.store_id == "") = false := beq_eq_false_iff_ne.mpr hsid
    refine ⟨r, ?_⟩
    unfold handleBulk
    simp only [Bool.not_true, Bool.false_eq_true, if_false, hb, hr]

/-- C7 witness: a malformed row (missing medicine name) in the middle of
a batch does not stop the valid row around it: the valid row's candidate
is produced, the malformed row is collected as an error, and the batch
completes with status 200. -/
theorem claim_C7_witness :
    (⟨"S1", "med1", none, 5, none, none, none⟩ : Candidate) ∈
      (classifyRows fbNone [("med1", "Paracetamol")] "S1"
        [⟨1, none, none, JsNum.num 1, JsNum.missing, JsNum.missing, none⟩,
         ⟨2, some "Paracetamol", none, JsNum.num 5, JsNum.missing, JsNum.missing,
           none⟩]).1 :=
  claim_C7_row_independence.1 fbNone [("med1", "Paracetamol")] "S1"
    [⟨1, none, none, JsNum.num 1, JsNum.missing, JsNum.missing, none⟩,
     ⟨2, some "Paracetamol", none, JsNum.num 5, JsNum.missing, JsNum.missing, none⟩]
    ⟨2, some "Paracetamol", none, JsNum.num 5, JsNum.missing, JsNum.missing, none⟩
    ⟨"S1", "med1", none, 5, none, none, none⟩ (by simp) rfl

/-! ## Claims about the sale handler -/

/-- C4 (amended): a request whose bearer token is presented but invalid
is answered 401 with no domain logic run (the response is independent of
the stores table and of the database, quantified over both); a request
with no `Authorization` header at all is thrown as an error and caught by
the generic handler, yielding 500 — not 401 — also before any domain
logic. -/
theorem claim_C4_auth_failure_statuses :
    (∀ (body : Option SalePayload) (stores : List (String × String))
        (rpc : RpcOutcome),
      handleSale true AuthOutcome.invalidToken body stores rpc =
        .fail 401 "Authentication required or token invalid.") ∧
    (∀ (body : Option SalePayload) (stores : List (String × String))
        (rpc : RpcOutcome),
      handleSale true AuthOutcome.noHeader body stores rpc =
        .fail 500 "Missing Authorization header.") := by
  constructor <;> intro body stores rpc <;> rfl

/-- C4 counterexample: with the `Authorization` header missing, the
response status is 500, not the claimed 401. -/
theorem claim_C4_counterexample :
    handleSale true AuthOutcome.noHeader none [] (.err "") =
      .fail 500 "Missing Authorization header." ∧ (500 : Nat) ≠ 401 :=
  ⟨rfl, by omega⟩

/-- C10: when authentication and the store check pass but the RPC returns
without error and its result set is `null`, empty, or has a first row
whose `sale_id` or `bill_number` is missing or empty, the handler
responds 500 with the internal-error message (even though, the RPC having
reported success, the database transaction may already have committed). -/
theorem claim_C10_rpc_missing_fields (uid : String) (p : SalePayload)
    (stores : List (String × String)) (s0 : String × String)
    (data : Option (List RpcRow)) (hsid : p.store_id ≠ "")
    (hs : storeMatches stores p.store_id uid = [s0])
    (hbad : data = none ∨ data = some [] ∨
      ∃ r rest, data = some (r :: rest) ∧
        (truthyStr r.sale_id = false ∨ truthyStr r.bill_number = false)) :
    handleSale true (.user uid) (some p) stores (.ok data) =
      .fail 500
        "Internal server error: Failed to retrieve sale details after creation." := by
  have hb : (p.store_id == "") = false := beq_eq_false_iff_ne.mpr hsid
  have hst : saleStatusFor
      "Internal server error: Failed to retrieve sale details after creation." = 500 := by
    decide
  unfold handleSale saleTry processSaleTransaction
  simp only [Bool.not_true, Bool.false_eq_true, if_false, hb, hs]
  rcases hbad with h | h | ⟨r, rest, h, hfal⟩ <;> subst h
  · simp [rpcToResult, hst]
  · simp [rpcToResult, hst]
  · rcases hfal with h1 | h1 <;> simp [rpcToResult, h1, hst]

/-- C10 witness: concrete request whose RPC result row has an empty
`sale_id`. -/
theorem claim_C10_witness :
    handleSale true (.user "U1")
        (some ⟨"S1", none, 0, []⟩) [("S1", "U1")]
        (.ok (some [⟨some "", some "BILL-1"⟩])) =
      .fail 500
        "Internal server error: Failed to retrieve sale details after creation." :=
  claim_C10_rpc_missing_fields "U1" ⟨"S1", none, 0, []⟩ [("S1", "U1")] ("S1", "U1")
    (some [⟨some "", some "BILL-1"⟩]) (by decide) rfl
    (Or.inr (Or.inr ⟨⟨some "", some "BILL-1"⟩, [], rfl, Or.inl rfl⟩))

/-- The sale id generated by the modelled transaction is never falsy. -/
theorem saleId_truthy (n : Nat) : truthyStr (some ("sale-" ++ natToDec n)) = true := by
  simp only [truthyStr, Bool.not_eq_true', beq_eq_false_iff_ne]
  intro h
  have hl := congrArg String.length h
  rw [String.length_append] at hl
  have h5 : "sale-".length = 5 := rfl
  have h0 : ("" : String).length = 0 := rfl
  omega

/-- A non-empty string is truthy. -/
theorem truthy_of_ne (s : String) (h : s ≠ "") : truthyStr (some s) = true := by
  simp only [truthyStr, Bool.not_eq_true', beq_eq_false_iff_ne]
  exact h

/-- Interpreting an RPC success whose row carries truthy identifiers. -/
theorem rpcToResult_good (sid bn : String) (h1 : truthyStr (some sid) = true)
    (h2 : truthyStr (some bn) = true) :
    rpcToResult (.ok (some [⟨some sid, some bn⟩])) = .ok (sid, bn) := by
  simp [rpcToResult, h1, h2]

/-- C3 (amended): a sale request with an empty `items` array is not
rejected by payload validation (an empty array still passes the
`Array.isArray` shape check): the request reaches the store-ownership
check, whose outcome decides the response — a caller who does not own the
store gets the 400 verification error, and when ownership and the
database call succeed the handler commits a `Sale` row with no line items
and returns success. -/
theorem claim_C3_empty_cart_not_rejected :
    (∀ (uid : String) (p : SalePayload) (stores : List (String × String))
        (rpc : RpcOutcome),
      p.items = [] → p.store_id ≠ "" → storeMatches stores p.store_id uid = [] →
      handleSale true (.user uid) (some p) stores rpc =
        .fail 400 "Store verification failed or access denied.") ∧
    (∀ (uid : String) (p : SalePayload) (stores : List (String × String))
        (s0 : String × String) (st : DbState) (bill : String),
      p.items = [] → p.store_id ≠ "" → storeMatches stores p.store_id uid = [s0] →
      bill ≠ "" →
      (handleSaleSystem true (.user uid) (some p) stores st bill).2.sales.length =
          st.sales.length + 1 ∧
      ∃ sid bn,
        (handleSaleSystem true (.user uid) (some p) stores st bill).1 =
          .ok sid bn) := by
  constructor
  · intro uid p stores rpc _ hsid hs
    have hb : (p.store_id == "") = false := beq_eq_false_iff_ne.mpr hsid
    have h400 : saleStatusFor "Store verification failed or access denied." = 400 := by
      decide
    unfold handleSale saleTry processSaleTransaction
    simp only [Bool.not_true, Bool.false_eq_true, if_false, hb, hs]
    simp [h400]
  · intro uid p stores s0 st bill hitems hsid hs hbill
    have hb : (p.store_id == "") = false := beq_eq_false_iff_ne.mpr hsid
    unfold handleSaleSystem
    simp only [Bool.not_true, Bool.false_eq_true, if_false, hb, hs]
    unfold create_sale_and_update_inventory
    rw [hitems]
    simp only [sellItems]
    rw [rpcToResult_good _ _ (saleId_truthy _) (truthy_of_ne _ hbill)]
    constructor
    · simp
    · exact ⟨_, _, rfl⟩

/-- C3 counterexample: an empty-cart request from the store's owner, with
the database reporting success, is answered 200 with a sale id — it is
not rejected as a 400 validation error before the authorization check. -/
theorem claim_C3_counterexample :
    handleSale true (.user "U1") (some ⟨"S1", none, 0, []⟩) [("S1", "U1")]
        (.ok (some [⟨some "sid1", some "bill1"⟩])) = .ok "sid1" "bill1" := by
  rfl

/-- C3 witness: both amended conjuncts at concrete inputs — a non-owner
gets the store-verification 400, and an owner's empty cart commits. -/
theorem claim_C3_witness :
    handleSale true (.user "U2") (some ⟨"S1", none, 0, []⟩) [("S1", "U1")]
        (.err "x") = .fail 400 "Store verification failed or access denied." :=
  claim_C3_empty_cart_not_rejected.1 "U2" ⟨"S1", none, 0, []⟩ [("S1", "U1")]
    (.err "x") rfl (by decide) rfl

/-! ## Lemmas: the modelled sale transaction -/

/-- Updating a quantity never changes the batch ids (or their order). -/
theorem updateQty_ids (inv : List InventoryBatch) (sid iid : String) (q : Int) :
    (updateQty inv sid iid q).map (fun b => b.id) = inv.map (fun b => b.id) := by
  unfold updateQty
  rw [List.map_map]
  congr 1
  funext b
  by_cases hc : (b.id == iid && b.store_id == sid) = true
  · simp [Function.comp, hc]
  · simp [Function.comp, hc]

/-- Updating one batch leaves the tracked quantity of every other id
unchanged. -/
theorem qtyOf_updateQty_ne (inv : List InventoryBatch) (sid iid b : String)
    (q : Int) (hne : b ≠ iid) :
    qtyOf (updateQty inv sid iid q) b = qtyOf inv b := by
  induction inv with
  | nil => rfl
  | cons x rest ih =>
    unfold updateQty qtyOf at ih ⊢
    simp only [List.map_cons]
    by_cases hx : (x.id == iid && x.store_id == sid) = true
    · rw [if_pos hx]
      have hxb : (x.id == b) = false := by
        have := (Bool.and_eq_true _ _).mp hx
        rw [beq_eq_false_iff_ne]
        intro hcon
        exact hne (by rw [← hcon, eq_of_beq this.1])
      simp only [List.find?, hxb]
      exact ih
    · rw [if_neg hx]
      by_cases hxb : (x.id == b) = true
      · simp only [List.find?, hxb]
      · simp only [List.find?, Bool.not_eq_true] at hxb
        simp only [List.find?, hxb]
        exact ih

/-- Under unique batch ids, the batch the transaction locates for a cart
item is the batch the id lookup sees: same quantity, and its id is the
requested one. -/
theorem findBatch_qtyOf (inv : List InventoryBatch) (sid iid : String)
    (bt : InventoryBatch) (hnd : (inv.map (fun x => x.id)).Nodup)
    (hf : findBatch inv sid iid = some bt) :
    qtyOf inv iid = some bt.quantity ∧ bt.id = iid := by
  induction inv with
  | nil => simp [findBatch] at hf
  | cons x rest ih =>
    rw [List.map_cons, List.nodup_cons] at hnd
    unfold findBatch at hf
    unfold qtyOf
    by_cases hx : (x.id == iid && x.store_id == sid) = true
    · simp only [List.find?, hx] at hf
      injection hf with hf
      subst hf
      have hid : (x.id == iid) = true := ((Bool.and_eq_true _ _).mp hx).1
      simp only [List.find?, hid]
      exact ⟨rfl, eq_of_beq hid⟩
    · simp only [Bool.not_eq_true] at hx
      simp only [List.find?, hx] at hf
      have hrec := ih hnd.2 hf
      have hxid : (x.id == iid) = false := by
        rw [beq_eq_false_iff_ne]
        intro hcon
        apply hnd.1
        rw [List.mem_map]
        exact ⟨bt, List.mem_of_find?_eq_some hf, by rw [hrec.2, hcon]⟩
      simp only [List.find?, hxid]
      exact hrec

/-- Under unique batch ids, after the transaction decrements the batch it
located, the id lookup sees the new quantity. -/
theorem qtyOf_updateQty_found (inv : List InventoryBatch) (sid iid : String)
    (bt : InventoryBatch) (q : Int) (hnd : (inv.map (fun x => x.id)).Nodup)
    (hf : findBatch inv sid iid = some bt) :
    qtyOf (updateQty inv sid iid q) iid = some q := by
  induction inv with
  | nil => simp [findBatch] at hf
  | cons x rest ih =>
    rw [List.map_cons, List.nodup_cons] at hnd
    unfold findBatch at hf
    unfold updateQty qtyOf
    simp only [List.map_cons]
    by_cases hx : (x.id == iid && x.store_id == sid) = true
    · have hid : (x.id == iid) = true := ((Bool.and_eq_true _ _).mp hx).1
      rw [if_pos hx]
      simp only [List.find?, hid]
      rfl
    · simp only [Bool.not_eq_true] at hx
      simp only [List.find?, hx] at hf
      have hxid : (x.id == iid) = false := by
        rw [beq_eq_false_iff_ne]
        intro hcon
        apply hnd.1
        rw [List.mem_map]
        refine ⟨bt, List.mem_of_find?_eq_some hf, ?_⟩
        have := (findBatch_qtyOf rest sid iid bt hnd.2 hf).2
        rw [this, hcon]
      rw [if_neg (by simp [hx])]
      simp only [List.find?, hxid]
      exact ih hnd.2 hf

/-- Splitting the per-batch cart total at the head item. -/
theorem soldFor_cons (b : String) (it : SaleItemPayload)
    (rest : List SaleItemPayload) :
    soldFor b (it :: rest) =
      (if it.inventory_id == b then it.quantity_sold else 0) + soldFor b rest := by
  unfold soldFor
  by_cases h : (it.inventory_id == b) = true
  · simp [List.filter_cons, h]
  · simp only [Bool.not_eq_true] at h
    simp [List.filter_cons, h]

/-- The per-item loop of the modelled transaction: if it accepts the
cart, the tracked quantity of any existing batch drops by exactly the
cart's total against that batch, stays non-negative, and the inventory
ids are unchanged. -/
theorem sellItems_qty (sid : String) :
    ∀ (items : List SaleItemPayload) (inv inv2 : List InventoryBatch)
      (b : String) (q : Int),
    (∀ it ∈ items, 0 < it.quantity_sold) →
    ((inv.map (fun x => x.id)).Nodup) →
    qtyOf inv b = some q → 0 ≤ q →
    sellItems sid inv items = .ok inv2 →
    qtyOf inv2 b = some (q - soldFor b items) ∧ 0 ≤ q - soldFor b items ∧
      inv2.map (fun x => x.id) = inv.map (fun x => x.id) := by
  intro items
  induction items with
  | nil =>
    intro inv inv2 b q _ _ hq hq0 hsell
    unfold sellItems at hsell
    injection hsell with hsell
    subst hsell
    refine ⟨?_, ?_, rfl⟩
    · simpa [soldFor] using hq
    · simpa [soldFor] using hq0
  | cons it rest ih =>
    intro inv inv2 b q hpos hnd hq hq0 hsell
    unfold sellItems at hsell
    rcases hf : findBatch inv sid it.inventory_id with _ | bt <;>
      simp only [hf] at hsell
    · exact absurd hsell (by simp)
    by_cases hlt : bt.quantity < it.quantity_sold
    · rw [if_pos hlt] at hsell
      simp at hsell
    · rw [if_neg hlt] at hsell
      have hpos0 : 0 < it.quantity_sold := hpos it (List.mem_cons_self _ _)
      have hnd1 : ((updateQty inv sid it.inventory_id
          (bt.quantity - it.quantity_sold)).map (fun x => x.id)).Nodup := by
        rw [updateQty_ids]
        exact hnd
      by_cases hbid : it.inventory_id = b
      · subst hbid
        obtain ⟨hqq, -⟩ := findBatch_qtyOf inv sid it.inventory_id bt hnd hf
        have hbtq : bt.quantity = q := by
          rw [hq] at hqq
          injection hqq with h2
          omega
        have h1 : qtyOf (updateQty inv sid it.inventory_id
            (bt.quantity - it.quantity_sold)) it.inventory_id =
            some (q - it.quantity_sold) := by
          rw [qtyOf_updateQty_found inv sid it.inventory_id bt _ hnd hf, hbtq]
        have hq1 : (0 : Int) ≤ q - it.quantity_sold := by omega
        obtain ⟨ha, hb2, hc⟩ := ih _ inv2 it.inventory_id (q - it.quantity_sold)
          (fun x hx => hpos x (List.mem_cons_of_mem _ hx)) hnd1 h1 hq1 hsell
        rw [soldFor_cons]
        simp only [beq_self_eq_true, if_true]
        refine ⟨by rw [ha]; congr 1; omega, by omega, ?_⟩
        rw [hc, updateQty_ids]
      · have h1 : qtyOf (updateQty inv sid it.inventory_id
            (bt.quantity - it.quantity_sold)) b = some q := by
          rw [qtyOf_updateQty_ne inv sid it.inventory_id b _ (Ne.symm hbid)]
          exact hq
        obtain ⟨ha, hb2, hc⟩ := ih _ inv2 b q
          (fun x hx => hpos x (List.mem_cons_of_mem _ hx)) hnd1 h1 hq0 hsell
        rw [soldFor_cons]
        have hne2 : (it.inventory_id == b) = false := beq_eq_false_iff_ne.mpr hbid
        simp only [hne2, Bool.false_eq_true, if_false]
        refine ⟨by rw [ha]; congr 1; omega, by omega, ?_⟩
        rw [hc, updateQty_ids]

/-- One sale request: accepted requests decrement each existing batch by
the cart's total against it, keeping it non-negative and preserving the
inventory ids; rejected requests leave the state exactly as it was. -/
theorem applyOne_qty (st : DbState) (p : SalePayload) (bill b : String)
    (q : Int) (hpos : ∀ it ∈ p.items, 0 < it.quantity_sold)
    (hnd : (st.inventory.map (fun x => x.id)).Nodup)
    (hq : qtyOf st.inventory b = some q) (hq0 : 0 ≤ q) :
    ((applyOne st p bill).2 = true →
      qtyOf (applyOne st p bill).1.inventory b = some (q - soldFor b p.items) ∧
      0 ≤ q - soldFor b p.items ∧
      (applyOne st p bill).1.inventory.map (fun x => x.id) =
        st.inventory.map (fun x => x.id)) ∧
    ((applyOne st p bill).2 = false → (applyOne st p bill).1 = st) := by
  unfold applyOne create_sale_and_update_inventory
  rcases hs : sellItems p.store_id st.inventory p.items with e | inv2 <;>
    simp only [hs]
  · refine ⟨fun h => ?_, fun _ => ?_⟩
    · simp at h
    · first
      | rfl
      | trivial
  · refine ⟨fun _ => ?_, fun h => by simp at h⟩
    exact sellItems_qty p.store_id p.items st.inventory inv2 b q hpos hnd hq hq0 hs

/-- Unfolding one step of a sequential run. -/
theorem runSales_cons (st : DbState) (p : SalePayload) (ps : List SalePayload) :
    runSales st (p :: ps) =
      ((runSales (applyOne st p "BILL").1 ps).1,
        (applyOne st p "BILL").2 :: (runSales (applyOne st p "BILL").1 ps).2) :=
  rfl

/-- C1 (spec-modelled): for every serialization of concurrently-submitted
sale requests against the modelled atomic transaction, and every existing
inventory batch with non-negative starting quantity and unique ids, the
total `quantity_sold` of the accepted requests against that batch never
exceeds its starting quantity, the final quantity is exactly the start
minus that total and never negative, and a rejected (over-subscribed)
request leaves the whole database state unchanged rather than being
partially applied. -/
theorem claim_C1_stock_invariant :
    (∀ (reqs : List SalePayload) (st : DbState) (b : String) (q0 : Int),
      (∀ p ∈ reqs, ∀ it ∈ p.items, 0 < it.quantity_sold) →
      (st.inventory.map (fun x => x.id)).Nodup →
      qtyOf st.inventory b = some q0 → 0 ≤ q0 →
      acceptedSold b reqs (runSales st reqs).2 ≤ q0 ∧
      qtyOf (runSales st reqs).1.inventory b =
        some (q0 - acceptedSold b reqs (runSales st reqs).2) ∧
      0 ≤ q0 - acceptedSold b reqs (runSales st reqs).2) ∧
    (∀ (st : DbState) (p : SalePayload) (bill : String),
      (applyOne st p bill).2 = false → (applyOne st p bill).1 = st) := by
  constructor
  · intro reqs
    induction reqs with
    | nil =>
      intro st b q0 _ _ hq hq0
      simp only [runSales, acceptedSold]
      exact ⟨hq0, by simpa using hq, by omega⟩
    | cons p ps ih =>
      intro st b q0 hpos hnd hq hq0
      have hposp : ∀ it ∈ p.items, 0 < it.quantity_sold :=
        hpos p (List.mem_cons_self _ _)
      have hposr : ∀ r ∈ ps, ∀ it ∈ r.items, 0 < it.quantity_sold :=
        fun r hr => hpos r (List.mem_cons_of_mem _ hr)
      rw [runSales_cons]
      rcases hacc : (applyOne st p "BILL").2 with _ | _
      · have hst1 : (applyOne st p "BILL").1 = st :=
          (applyOne_qty st p "BILL" b q0 hposp hnd hq hq0).2 hacc
        rw [hst1]
        have hrec := ih st b q0 hposr hnd hq hq0
        simp only [acceptedSold, hacc, Bool.false_eq_true, if_false, zero_add]
        exact hrec
      · obtain ⟨hq1, hge0, hids⟩ :=
          (applyOne_qty st p "BILL" b q0 hposp hnd hq hq0).1 hacc
        have hnd1 : ((applyOne st p "BILL").1.inventory.map
            (fun x => x.id)).Nodup := by
          rw [hids]
          exact hnd
        have hrec := ih (applyOne st p "BILL").1 b (q0 - soldFor b p.items)
          hposr hnd1 hq1 hge0
        simp only [acceptedSold, hacc, if_true]
        refine ⟨by omega, ?_, by omega⟩
        rw [hrec.2.1]
        congr 1
        omega
  · intro st p bill hrej
    unfold applyOne at hrej ⊢
    rcases hs : create_sale_and_update_inventory st p.store_id p.customer_name
        p.total_amount p.items bill with e | r <;> simp only [hs] at hrej ⊢
    simp at hrej

/-- C1 witness: two serialized requests each selling 3 units against a
batch holding 5 — the accepted total stays within 5 and the final
quantity is non-negative. -/
theorem claim_C1_witness :
    acceptedSold "A"
        [⟨"S1", none, 0, [⟨"A", 3, 0, 0, "Med"⟩]⟩,
         ⟨"S1", none, 0, [⟨"A", 3, 0, 0, "Med"⟩]⟩]
        (runSales ⟨[⟨"A", "S1", 5⟩], [], []⟩
          [⟨"S1", none, 0, [⟨"A", 3, 0, 0, "Med"⟩]⟩,
           ⟨"S1", none, 0, [⟨"A", 3, 0, 0, "Med"⟩]⟩]).2 ≤ 5 ∧
    qtyOf (runSales ⟨[⟨"A", "S1", 5⟩], [], []⟩
        [⟨"S1", none, 0, [⟨"A", 3, 0, 0, "Med"⟩]⟩,
         ⟨"S1", none, 0, [⟨"A", 3, 0, 0, "Med"⟩]⟩]).1.inventory "A" =
      some (5 - acceptedSold "A"
        [⟨"S1", none, 0, [⟨"A", 3, 0, 0, "Med"⟩]⟩,
         ⟨"S1", none, 0, [⟨"A", 3, 0, 0, "Med"⟩]⟩]
        (runSales ⟨[⟨"A", "S1", 5⟩], [], []⟩
          [⟨"S1", none, 0, [⟨"A", 3, 0, 0, "Med"⟩]⟩,
           ⟨"S1", none, 0, [⟨"A", 3, 0, 0, "Med"⟩]⟩]).2) ∧
    0 ≤ 5 - acceptedSold "A"
        [⟨"S1", none, 0, [⟨"A", 3, 0, 0, "Med"⟩]⟩,
         ⟨"S1", none, 0, [⟨"A", 3, 0, 0, "Med"⟩]⟩]
        (runSales ⟨[⟨"A", "S1", 5⟩], [], []⟩
          [⟨"S1", none, 0, [⟨"A", 3, 0, 0, "Med"⟩]⟩,
           ⟨"S1", none, 0, [⟨"A", 3, 0, 0, "Med"⟩]⟩]).2 :=
  claim_C1_stock_invariant.1
    [⟨"S1", none, 0, [⟨"A", 3, 0, 0, "Med"⟩]⟩,
     ⟨"S1", none, 0, [⟨"A", 3, 0, 0, "Med"⟩]⟩]
    ⟨[⟨"A", "S1", 5⟩], [], []⟩ "A" 5 (by decide) (by decide) rfl (by decide)


/-- C2 (spec-modelled): atomicity of the sale pipeline over the modelled
transaction.  First conjunct: whenever the response is not the 200
success — any failure, including insufficient stock for any cart item —
the database state afterwards is exactly the state before: no `Sale` row,
no `SaleItem` row, and no inventory change persists.  Second conjunct:
when the modelled transaction aborts with an insufficient-stock error,
the response is the 400 business-rule rejection naming the stock problem,
and the state is unchanged. -/
theorem claim_C2_atomicity :
    ∀ (envOk : Bool) (auth : AuthOutcome) (body : Option SalePayload)
      (stores : List (String × String)) (st : DbState) (bill : String),
    bill ≠ "" →
    ((∀ sid bn,
        (handleSaleSystem envOk auth body stores st bill).1 ≠ .ok sid bn) →
      (handleSaleSystem envOk auth body stores st bill).2 = st) ∧
    (∀ (uid : String) (p : SalePayload) (s0 : String × String) (e : String),
      envOk = true → auth = .user uid → body = some p → p.store_id ≠ "" →
      storeMatches stores p.store_id uid = [s0] →
      create_sale_and_update_inventory st p.store_id p.customer_name
        p.total_amount p.items bill = .error e →
      strIncludes "Insufficient stock" e = true →
      (handleSaleSystem envOk auth body stores st bill).1 =
        .fail 400 "Insufficient stock for one or more items." ∧
      (handleSaleSystem envOk auth body stores st bill).2 = st) := by
  intro envOk auth body stores st bill hbill
  constructor
  · intro hnok
    unfold handleSaleSystem
    cases envOk
    · rfl
    · cases auth with
      | noHeader => rfl
      | invalidToken => rfl
      | user uid =>
        cases body with
        | none => rfl
        | some p =>
          by_cases hsid : (p.store_id == "") = true
          · simp only [Bool.not_true, Bool.false_eq_true, if_false, hsid,
              if_true]
          · have hb : (p.store_id == "") = false := by
              simpa using hsid
            simp only [Bool.not_true, Bool.false_eq_true, if_false, hb]
            rcases hsm : storeMatches stores p.store_id uid with _ | ⟨s1, rest⟩
            · simp only [hsm]
            · rcases rest with _ | ⟨s2, rest2⟩
              · simp only [hsm]
                rcases hc : create_sale_and_update_inventory st p.store_id
                    p.customer_name p.total_amount p.items bill with e | r
                · simp only [hc]
                  rcases hrr : rpcToResult (.err e) with e2 | s <;>
                    simp only [hrr]
                · exfalso
                  have hcc := hc
                  unfold create_sale_and_update_inventory at hcc
                  rcases hs2 : sellItems p.store_id st.inventory p.items
                      with e2 | inv2
                  · rw [hs2] at hcc
                    simp at hcc
                  · rw [hs2] at hcc
                    injection hcc with hcc
                    apply hnok ("sale-" ++ natToDec st.sales.length) bill
                    unfold handleSaleSystem
                    simp only [Bool.not_true, Bool.false_eq_true, if_false, hb,
                      hsm, hc, ← hcc]
                    rw [rpcToResult_good _ _ (saleId_truthy _)
                      (truthy_of_ne _ hbill)]
              · simp only [hsm]
  · intro uid p s0 e henv hauth hbody hsid hsm hcreate hstock
    subst henv
    subst hauth
    subst hbody
    have hb : (p.store_id == "") = false := beq_eq_false_iff_ne.mpr hsid
    have h400 : saleStatusFor "Insufficient stock for one or more items." = 400 := by
      decide
    unfold handleSaleSystem
    simp only [Bool.not_true, Bool.false_eq_true, if_false, hb, hsm, hcreate]
    simp only [rpcToResult, hstock, if_true]
    refine ⟨by rw [h400], by trivial⟩

/-- C2 witness: a cart selling 6 units against a batch holding 5 — the
response is the 400 insufficient-stock rejection and the database state
(inventory, sales, sale items) is untouched. -/
theorem claim_C2_witness :
    (handleSaleSystem true (.user "U1")
        (some ⟨"S1", none, 0, [⟨"A", 6, 0, 0, "Med"⟩]⟩) [("S1", "U1")]
        ⟨[⟨"A", "S1", 5⟩], [], []⟩ "B1").1 =
      .fail 400 "Insufficient stock for one or more items." ∧
    (handleSaleSystem true (.user "U1")
        (some ⟨"S1", none, 0, [⟨"A", 6, 0, 0, "Med"⟩]⟩) [("S1", "U1")]
        ⟨[⟨"A", "S1", 5⟩], [], []⟩ "B1").2 = ⟨[⟨"A", "S1", 5⟩], [], []⟩ :=
  (claim_C2_atomicity true (.user "U1")
      (some ⟨"S1", none, 0, [⟨"A", 6, 0, 0, "Med"⟩]⟩) [("S1", "U1")]
      ⟨[⟨"A", "S1", 5⟩], [], []⟩ "B1" (by decide)).2
    "U1" ⟨"S1", none, 0, [⟨"A", 6, 0, 0, "Med"⟩]⟩ ("S1", "U1")
    "Insufficient stock for item Med." rfl rfl rfl (by decide) rfl rfl (by decide)
